import Mathlib

/-!
Verification of the shader hot-reload pipeline of skuggbox-rs.

The development shallowly embeds `src/shader/service.rs` (the authoritative
`ShaderService`, `create_shaders`, `get_uniform_locations`, `watch`, `run`,
`reload`) over an explicit environment value that stands for the external
world (the file system and the GPU API).  The preprocessor
(`PreProcessor::reload`, `find_included_files`) and the compiler
(`ShaderProgram::from_frag_src`) live outside the provided sources; they are
modelled from the specification, each marked as such in its doc comment.
-/

namespace Skuggbox

/-- File paths; `PathBuf` in the source. -/
abbrev Path := String

/-- One line of shader source after scanning for the single-line include
directive: either plain text or an include of another file (spec section 4.1,
section 6: a single-line marker naming a file path). -/
inductive Line where
  | text (s : String)
  | incl (p : Path)
deriving Repr, DecidableEq

/-- The error taxonomy of spec section 7 (`ShaderError` in the source). -/
inductive ShaderError where
  | sourceReadError (p : Path)
  | includeNotFound (p : Path)
  | includeCycle
  | compileError (msg : String)
  | watchSetupError (p : Path)
deriving Repr, DecidableEq

/-- The file system visible to the preprocessor: path to scanned contents.
A path absent from the list is a missing/unreadable file. -/
abbrev FS := List (Path × List Line)

/-- Remove duplicates keeping the first occurrence of each path, with an
accumulator of paths already seen (spec section 4.1: dependency paths have
duplicates removed while preserving first occurrence). -/
def dedupAcc (seen : List Path) : List Path → List Path
  | [] => []
  | x :: xs => if x ∈ seen then dedupAcc seen xs else x :: dedupAcc (x :: seen) xs

/-- Duplicate removal preserving first occurrences. -/
def dedupFirst (l : List Path) : List Path := dedupAcc [] l

/-- Processing of one scanned line during resolution: text lines are emitted,
include lines are replaced by the fully resolved contents of the target
before scanning continues (spec section 4.1).  `resolveF` resolves an
included file under the given visiting chain; `acc` resolves the remaining
lines. -/
def lineStep (resolveF : List Path → Path → Except ShaderError (String × List Path))
    (visiting : List Path) (line : Line)
    (acc : Except ShaderError (String × List Path)) :
    Except ShaderError (String × List Path) :=
  match line with
  | Line.text s => do
      let (t, d) ← acc
      Except.ok (s ++ "\n" ++ t, d)
  | Line.incl q => do
      let (tq, dq) ← resolveF visiting q
      let (t, d) ← acc
      Except.ok (tq ++ t, dq ++ d)

/-- Modelled from the spec: depth-first resolution of one file
(section 4.1, section 9), the recursive core of `PreProcessor::reload`,
whose code is not among the provided sources.  The explicit
currently-visiting chain `visiting` is what cycle detection checks against;
a file already on the chain yields `IncludeCycle`.  Recursion depth is
bounded by `fuel`; since every element of the visiting chain is a distinct
existing file, the standard fuel of `resolve` (one more than the number of
files) can never run out, so the exhausted-fuel branch conservatively
reports a cycle.  Returns the expanded text and the dependency paths in
first-visited order (the resolved file first), possibly with duplicates. -/
def resolveFile (fs : FS) : Nat → List Path → Path → Except ShaderError (String × List Path)
  | 0 => fun _ _ => Except.error ShaderError.includeCycle
  | fuel + 1 => fun visiting p =>
      if p ∈ visiting then Except.error ShaderError.includeCycle
      else
        match List.lookup p fs with
        | none => Except.error (ShaderError.includeNotFound p)
        | some lines =>
            Except.map (fun td => (td.1, p :: td.2))
              (List.foldr (lineStep (resolveFile fs fuel) (p :: visiting))
                (Except.ok ("", [])) lines)

/-- Modelled from the spec: `resolve(root_path) -> (source_text,
dependency_paths)` of section 4.1.  An unreadable root is a
`SourceReadError`; missing include targets surface as `IncludeNotFound`
from `resolveFile`; dependency paths are deduplicated preserving first
occurrence. -/
def resolve (fs : FS) (root : Path) : Except ShaderError (String × List Path) :=
  match List.lookup root fs with
  | none => Except.error (ShaderError.sourceReadError root)
  | some _ =>
      Except.map (fun td => (td.1, dedupFirst td.2))
        (resolveFile fs (fs.length + 1) [] root)

/-- File `a` has an include directive for file `b`: one edge of the include
graph. -/
def includesEdge (fs : FS) (a b : Path) : Prop :=
  ∃ lines, List.lookup a fs = some lines ∧ Line.incl b ∈ lines

/-- Modelled from the spec: the predefined declaration block the
preprocessor injects when `use_camera_integration` is set (section 4.1,
section 6: supplying a camera-transform uniform declaration). -/
def cameraIntegrationBlock : String := "uniform mat4 sb_camera_transform;\n"

/-- Modelled from the spec: the distinct declarations used when the flag is
unset and the shader owns its own camera math (section 4.1). -/
def shaderOwnedCameraBlock : String := "#define SHADER_OWNED_CAMERA 1\n"

/-- Modelled from the spec: `find_included_files` (used by the service but
not among the provided sources) returns the files transitively included by
the given root, in first-visited order without duplicates and without the
root itself, or `none` when resolution fails. -/
def find_included_files (fs : FS) (p : Path) : Option (List Path) :=
  match resolve fs p with
  | Except.ok td => some (td.2.drop 1)
  | Except.error _ => none

/-- The preprocessor state held by each shader (`PreProcessor` in the
source): the root path, the camera feature toggle and the fully expanded
source text of the last reload. -/
structure PreProcessor where
  main_shader_path : Path
  use_camera_integration : Bool
  shader_src : String
deriving Repr, DecidableEq

/-- Modelled from the spec: `PreProcessor::new(path)` (not among the
provided sources) starts with the feature flag unset and no expanded
source. -/
def PreProcessor.new (path : Path) : PreProcessor :=
  { main_shader_path := path, use_camera_integration := false, shader_src := "" }

/-- Modelled from the spec: `PreProcessor::reload` (not among the provided
sources) re-resolves the root path and stores the expanded source, prefixed
by the camera declaration block selected by `use_camera_integration`
(section 4.1).  On a resolution error the expanded source is empty. -/
def PreProcessor.reload (fs : FS) (pp : PreProcessor) : PreProcessor :=
  match resolve fs pp.main_shader_path with
  | Except.ok td =>
      { pp with
        shader_src :=
          (if pp.use_camera_integration then cameraIntegrationBlock
           else shaderOwnedCameraBlock) ++ td.1 }
  | Except.error _ => { pp with shader_src := "" }

/-- A compiled GPU program handle (`ShaderProgram` in the source). -/
structure ShaderProgram where
  id : Nat
deriving Repr, DecidableEq

/-- The external world of the service: the file system plus the GPU API.
`compile` is GLSL compilation (diagnostic text on failure, a program handle
on success) and `uniformLoc` is `gl::GetUniformLocation` (program handle
and uniform name to location, -1 when the uniform is absent). -/
structure Env where
  fs : FS
  compile : String → Except String Nat
  uniformLoc : Nat → String → Int

/-- Modelled from the spec: `ShaderProgram::from_frag_src` (not among the
provided sources) submits the source to the GPU API; a failure carries the
diagnostic text (section 4.3). -/
def ShaderProgram.from_frag_src (env : Env) (src : String) :
    Except ShaderError ShaderProgram :=
  match env.compile src with
  | Except.ok id => Except.ok { id := id }
  | Except.error msg => Except.error (ShaderError.compileError msg)

/-- The uniform location table of service.rs lines 18-23: four raw i32
locations. -/
structure ShaderLocations where
  resolution : Int
  time : Int
  time_delta : Int
  mouse : Int
deriving Repr, DecidableEq

/-- service.rs lines 26-28: query one uniform location from the GPU API. -/
def get_uniform_location (env : Env) (program : ShaderProgram)
    (uniform_name : String) : Int :=
  env.uniformLoc program.id uniform_name

/-- service.rs lines 30-37: the fixed table of recognized uniforms. -/
def get_uniform_locations (env : Env) (program : ShaderProgram) : ShaderLocations :=
  { resolution := get_uniform_location env program "iResolution"
    time := get_uniform_location env program "iTime"
    time_delta := get_uniform_location env program "iTimeDelta"
    mouse := get_uniform_location env program "iMouse" }

/-- service.rs lines 11-16: everything needed to build and reload one
shader. -/
structure SkuggboxShader where
  pre_processor : PreProcessor
  shader_program : ShaderProgram
  locations : ShaderLocations
  files : List Path
deriving Repr, DecidableEq

/-- The per-path closure inside `create_shaders` (service.rs lines 46-66):
build the preprocessor with the given camera flag, reload it, compile the
expanded source, query uniform locations and collect the root plus its
included files. -/
def createOneShader (env : Env) (use_cam_integration : Bool) (path : Path) :
    Except ShaderError SkuggboxShader :=
  let pre_processor :=
    PreProcessor.reload env.fs
      { PreProcessor.new path with use_camera_integration := use_cam_integration }
  match ShaderProgram.from_frag_src env pre_processor.shader_src with
  | Except.error e => Except.error e
  | Except.ok shader_program =>
      Except.ok
        { pre_processor := pre_processor
          shader_program := shader_program
          locations := get_uniform_locations env shader_program
          files := path :: ((find_included_files env.fs path).getD []) }

/-- service.rs lines 40-69: map `createOneShader` over the paths and collect
the results; as with Rust's `collect::<Result<Vec, _>>`, the first error
short-circuits the whole batch. -/
def create_shaders (env : Env) (shader_files : List Path)
    (use_cam_integration : Bool) : Except ShaderError (List SkuggboxShader) :=
  match shader_files with
  | [] => Except.ok []
  | path :: rest =>
      match createOneShader env use_cam_integration path with
      | Except.error e => Except.error e
      | Except.ok shader =>
          match create_shaders env rest use_cam_integration with
          | Except.error e => Except.error e
          | Except.ok others => Except.ok (shader :: others)

/-- service.rs lines 74-85: the service state.  The watcher receiver is
represented by its presence; the channel itself is external. -/
structure ShaderService where
  skuggbox_shaders : Option (List SkuggboxShader)
  initial_shader_files : List Path
  all_shader_files : List Path
  use_camera_integration : Bool
  receiver : Option Unit
deriving Repr, DecidableEq

/-- The loop at service.rs lines 90-96: for every root path, push the path
and then extend with its included files when `find_included_files` returns
some. -/
def dependencyUnion (env : Env) (shader_files : List Path) : List Path :=
  shader_files.foldl
    (fun acc f => acc ++ f :: ((find_included_files env.fs f).getD [])) []

/-- service.rs lines 88-113: `ShaderService::new`.  The compiled set is the
whole `create_shaders` batch when it succeeds and `None` when it fails; the
constructor itself always returns `Ok`. -/
def ShaderService.new (env : Env) (shader_files : List Path) :
    Except ShaderError ShaderService :=
  let all_shader_files := dependencyUnion env shader_files
  let skuggbox_shaders :=
    match create_shaders env shader_files false with
    | Except.ok sh => some sh
    | Except.error _ => none
  Except.ok
    { skuggbox_shaders := skuggbox_shaders
      initial_shader_files := shader_files
      all_shader_files := all_shader_files
      use_camera_integration := false
      receiver := none }

/-- service.rs lines 115-124: `watch` installs the receiver half of the
channel; the spawned watcher thread is external to this model. -/
def ShaderService.watch (s : ShaderService) : ShaderService :=
  { s with receiver := some () }

/-- service.rs lines 142-150: `reload` rebuilds the shaders from the
original root paths with the current camera flag; only a successful batch
replaces the compiled set (`if let Ok`), and the function returns `Ok(())`
on every path. -/
def ShaderService.reload (env : Env) (s : ShaderService) :
    ShaderService × Except ShaderError Unit :=
  let use_cam := s.use_camera_integration
  match create_shaders env s.initial_shader_files use_cam with
  | Except.ok sh => ({ s with skuggbox_shaders := some sh }, Except.ok ())
  | Except.error _ => (s, Except.ok ())

/-- service.rs lines 128-139: the per-frame poll.  `changeArrived` is the
outcome of `try_recv().is_ok()` on the installed receiver; a pending change
triggers a reload whose result is only logged. -/
def ShaderService.run (env : Env) (changeArrived : Bool) (s : ShaderService) :
    ShaderService :=
  match s.receiver with
  | some _ => if changeArrived then (s.reload env).1 else s
  | none => s

/-- Extract the service from the always-successful constructor (a fallback
value is required by totality but never used). -/
def serviceOf (env : Env) (shader_files : List Path) : ShaderService :=
  match ShaderService.new env shader_files with
  | Except.ok s => s
  | Except.error _ =>
      { skuggbox_shaders := none, initial_shader_files := [],
        all_shader_files := [], use_camera_integration := false,
        receiver := none }

/-! Concrete environments and services used as witnesses and
counterexamples. -/

/-- A two-file world: the root includes a library file and every source
compiles. -/
def env5a : Env :=
  { fs := [("main.frag", [Line.incl "lib.frag"]), ("lib.frag", [Line.text "l"])]
    compile := fun _ => Except.ok 1
    uniformLoc := fun _ _ => -1 }

/-- The same root after an edit that removed the include. -/
def env5b : Env :=
  { fs := [("main.frag", [Line.text "m"])]
    compile := fun _ => Except.ok 1
    uniformLoc := fun _ _ => -1 }

/-- A world whose compiler rejects every source with diagnostic text. -/
def envB : Env :=
  { fs := [("main.frag", [Line.text "x"])]
    compile := fun _ => Except.error "boom"
    uniformLoc := fun _ _ => -1 }

/-- A world where good.frag compiles and bad.frag does not. -/
def envC4 : Env :=
  { fs := [("good.frag", [Line.text "good"]), ("bad.frag", [Line.text "bad"])]
    compile := fun src =>
      if src = shaderOwnedCameraBlock ++ "good\n" then Except.ok 1
      else Except.error "bad shader"
    uniformLoc := fun _ _ => -1 }

/-- A GPU whose uniform-location answers differ from `envU2` only on the
name sb_camera_transform. -/
def envU1 : Env :=
  { fs := [], compile := fun _ => Except.error ""
    uniformLoc := fun _ name => if name = "sb_camera_transform" then 7 else -1 }

/-- See `envU1`. -/
def envU2 : Env :=
  { fs := [], compile := fun _ => Except.error ""
    uniformLoc := fun _ name => if name = "sb_camera_transform" then 9 else -1 }

/-- The service constructed in `env5a`: it holds one compiled shader. -/
def sB1 : ShaderService := serviceOf env5a ["main.frag"]

/-- The compiled set `sB1` holds. -/
def shA : List SkuggboxShader :=
  (create_shaders env5a ["main.frag"] false).toOption.getD []

/-- `sB1` after the user enables camera integration. -/
def sCam : ShaderService := { sB1 with use_camera_integration := true }

/-- The compiled set a reload of `sCam` produces in `env5a`. -/
def shCam : List SkuggboxShader :=
  (create_shaders env5a ["main.frag"] true).toOption.getD []

/-- Fallback shader value for list indexing. -/
def dummyShader : SkuggboxShader :=
  { pre_processor := PreProcessor.new ""
    shader_program := { id := 0 }
    locations := { resolution := -1, time := -1, time_delta := -1, mouse := -1 }
    files := [] }

/-- The single element of `shA`. -/
def shA0 : SkuggboxShader := shA.getD 0 dummyShader

/-- The single element of `shCam`. -/
def shCam0 : SkuggboxShader := shCam.getD 0 dummyShader

/-- A file that includes itself directly, but lists a missing include
first. -/
def fsC9 : FS := [("root.frag", [Line.incl "missing.frag", Line.incl "root.frag"])]

/-- A single file with no includes at all. -/
def fsGood : FS := [("solo.frag", [Line.text "x"])]

/-- Distinct file names for the pure include cycles. -/
def cname (i : Nat) : Path := String.mk (List.replicate (i + 1) 'f')

/-- The pure include cycle of length n: file i includes file (i+1) mod n. -/
def cycleFS (n : Nat) : FS :=
  (List.range n).map (fun i => (cname i, [Line.incl (cname ((i + 1) % n))]))

/-- The visiting chain after entering files 0 .. i-1 of a pure cycle. -/
def cvis : Nat → List Path
  | 0 => []
  | i + 1 => cname i :: cvis i

end Skuggbox

namespace Skuggbox

/-! Helper lemmas. -/

theorem reload_preserves_flag (fs : FS) (pp : PreProcessor) :
    (PreProcessor.reload fs pp).use_camera_integration = pp.use_camera_integration := by
  unfold PreProcessor.reload
  cases resolve fs pp.main_shader_path <;> rfl

theorem createOneShader_flag (env : Env) (flag : Bool) (p : Path) (x : SkuggboxShader)
    (h : createOneShader env flag p = Except.ok x) :
    x.pre_processor.use_camera_integration = flag := by
  simp only [createOneShader] at h
  split at h
  · exact absurd h (by simp)
  · rw [Except.ok.injEq] at h
    subst h
    simp [reload_preserves_flag]

theorem create_shaders_flag (env : Env) (flag : Bool) :
    ∀ (paths : List Path) (sh : List SkuggboxShader),
      create_shaders env paths flag = Except.ok sh →
      ∀ x ∈ sh, x.pre_processor.use_camera_integration = flag := by
  intro paths
  induction paths with
  | nil =>
      intro sh h x hx
      simp only [create_shaders, Except.ok.injEq] at h
      subst h
      simp at hx
  | cons p rest ih =>
      intro sh h x hx
      simp only [create_shaders] at h
      cases h1 : createOneShader env flag p with
      | error e => rw [h1] at h; exact absurd h (by simp)
      | ok shader =>
          rw [h1] at h
          cases h2 : create_shaders env rest flag with
          | error e => rw [h2] at h; exact absurd h (by simp)
          | ok others =>
              rw [h2] at h
              rw [Except.ok.injEq] at h
              subst h
              rcases List.mem_cons.mp hx with rfl | hmem
              · exact createOneShader_flag env flag p x h1
              · exact ih others h2 x hmem

theorem new_ok_elim (env : Env) (paths : List Path) (s : ShaderService)
    (h : ShaderService.new env paths = Except.ok s) :
    s = { skuggbox_shaders :=
            match create_shaders env paths false with
            | Except.ok sh => some sh
            | Except.error _ => none
          initial_shader_files := paths
          all_shader_files := dependencyUnion env paths
          use_camera_integration := false
          receiver := none } := by
  simp only [ShaderService.new, Except.ok.injEq] at h
  exact h.symm

/-! Claim theorems. -/

/-- C1: if a reload fails to re-resolve or recompile any of the original
root paths, the compiled set after the call equals the compiled set before
the call. -/
theorem c1_failed_reload_keeps_compiled_set (env : Env) (s : ShaderService)
    (cs : List SkuggboxShader) (e : ShaderError)
    (hs : s.skuggbox_shaders = some cs)
    (hc : create_shaders env s.initial_shader_files s.use_camera_integration =
      Except.error e) :
    ((s.reload env).1).skuggbox_shaders = some cs := by
  simp only [ShaderService.reload, hc]
  exact hs

theorem c1_witness : ((sB1.reload envB).1).skuggbox_shaders = some shA :=
  c1_failed_reload_keeps_compiled_set envB sB1 shA (ShaderError.compileError "boom")
    rfl rfl

/-- C2 evidence: a failed reload leaves the service bit-for-bit unchanged
and reports success; there is no last_error slot in the service state for
it to set. -/
theorem c2_failed_reload_changes_nothing (env : Env) (s : ShaderService)
    (e : ShaderError)
    (hc : create_shaders env s.initial_shader_files s.use_camera_integration =
      Except.error e) :
    s.reload env = (s, Except.ok ()) := by
  simp only [ShaderService.reload, hc]

theorem c2_witness : sB1.reload envB = (sB1, Except.ok ()) :=
  c2_failed_reload_changes_nothing envB sB1 (ShaderError.compileError "boom") rfl

/-- C3 evidence: reload returns Ok(()) on every call, also when resolution
or compilation failed; the typed error is discarded by the if-let. -/
theorem c3_reload_always_ok (env : Env) (s : ShaderService) :
    (s.reload env).2 = Except.ok () := by
  simp only [ShaderService.reload]
  cases create_shaders env s.initial_shader_files s.use_camera_integration <;> rfl

/-- C4 (amended): new always constructs the service, and its compiled set is
the result of the whole create_shaders batch: present in full when every
path succeeds, absent in full when any path fails. -/
theorem c4_new_all_or_nothing (env : Env) (paths : List Path) :
    (ShaderService.new env paths).isOk = true ∧
    ∀ s, ShaderService.new env paths = Except.ok s →
      s.skuggbox_shaders = (create_shaders env paths false).toOption := by
  constructor
  · rfl
  · intro s h
    rw [new_ok_elim env paths s h]
    cases hc : create_shaders env paths false <;> simp [hc, Except.toOption]

theorem c4_counterexample :
    ShaderService.new envC4 ["good.frag", "bad.frag"] =
      Except.ok (serviceOf envC4 ["good.frag", "bad.frag"]) ∧
    (serviceOf envC4 ["good.frag", "bad.frag"]).skuggbox_shaders = none ∧
    (createOneShader envC4 false "good.frag").isOk = true :=
  ⟨rfl, rfl, rfl⟩

theorem c4_witness :
    (ShaderService.new envC4 ["good.frag", "bad.frag"]).isOk = true ∧
    (serviceOf envC4 ["good.frag", "bad.frag"]).skuggbox_shaders =
      (create_shaders envC4 ["good.frag", "bad.frag"] false).toOption :=
  ⟨(c4_new_all_or_nothing envC4 ["good.frag", "bad.frag"]).1,
   (c4_new_all_or_nothing envC4 ["good.frag", "bad.frag"]).2 _ rfl⟩

/-- C5 (amended): the watched-file set is computed once at construction as
the dependency union of that moment, and no reload, successful or failed,
ever updates it. -/
theorem c5_watched_set_fixed_at_construction :
    (∀ (env : Env) (s : ShaderService),
      ((s.reload env).1).all_shader_files = s.all_shader_files) ∧
    (∀ (env : Env) (paths : List Path) (s : ShaderService),
      ShaderService.new env paths = Except.ok s →
      s.all_shader_files = dependencyUnion env paths) := by
  constructor
  · intro env s
    simp only [ShaderService.reload]
    cases create_shaders env s.initial_shader_files s.use_camera_integration <;> rfl
  · intro env paths s h
    rw [new_ok_elim env paths s h]

theorem c5_counterexample :
    ((sB1.reload env5b).1).all_shader_files = ["main.frag", "lib.frag"] ∧
    dependencyUnion env5b ["main.frag"] = ["main.frag"] ∧
    ((sB1.reload env5b).1).all_shader_files ≠ dependencyUnion env5b ["main.frag"] :=
  ⟨rfl, rfl, by decide⟩

theorem c5_witness :
    ((sB1.reload env5b).1).all_shader_files = sB1.all_shader_files ∧
    sB1.all_shader_files = dependencyUnion env5a ["main.frag"] :=
  ⟨c5_watched_set_fixed_at_construction.1 env5b sB1,
   c5_watched_set_fixed_at_construction.2 env5a ["main.frag"] sB1 rfl⟩

/-- C6: new resolves every shader with the camera flag unset, while reload
resolves with the service's current flag value: every shader a successful
construction yields carries flag false, and every shader set installed by a
successful reload carries the flag the service had at the call. -/
theorem c6_camera_flag_policy :
    (∀ (env : Env) (paths : List Path) (s : ShaderService)
      (sh : List SkuggboxShader),
      ShaderService.new env paths = Except.ok s →
      s.skuggbox_shaders = some sh →
      ∀ x ∈ sh, x.pre_processor.use_camera_integration = false) ∧
    (∀ (env : Env) (s : ShaderService) (sh : List SkuggboxShader),
      create_shaders env s.initial_shader_files s.use_camera_integration =
        Except.ok sh →
      ((s.reload env).1).skuggbox_shaders = some sh ∧
      ∀ x ∈ sh, x.pre_processor.use_camera_integration = s.use_camera_integration) := by
  constructor
  · intro env paths s sh hnew hsome
    rw [new_ok_elim env paths s hnew] at hsome
    cases hc : create_shaders env paths false with
    | error e => rw [hc] at hsome; exact absurd hsome (by simp)
    | ok l =>
        rw [hc] at hsome
        simp only [Option.some.injEq] at hsome
        subst hsome
        exact create_shaders_flag env false paths l hc
  · intro env s sh hc
    constructor
    · simp only [ShaderService.reload, hc]
    · exact create_shaders_flag env s.use_camera_integration s.initial_shader_files sh hc

theorem c6_witness :
    shA0.pre_processor.use_camera_integration = false ∧
    ((sCam.reload env5a).1).skuggbox_shaders = some shCam ∧
    shCam0.pre_processor.use_camera_integration = true :=
  ⟨c6_camera_flag_policy.1 env5a ["main.frag"] sB1 shA rfl rfl shA0 (by decide),
   (c6_camera_flag_policy.2 env5a sCam shCam rfl).1,
   (c6_camera_flag_policy.2 env5a sCam shCam rfl).2 shCam0 (by decide)⟩

/-- C7 evidence: the uniform table is built from exactly the four names
iResolution, iTime, iTimeDelta and iMouse; two GPUs that agree on those
four names produce identical tables, whatever they answer for any other
uniform such as sb_camera_transform. -/
theorem c7_no_camera_slot_consulted (e1 e2 : Env) (p : ShaderProgram)
    (h : ∀ name, name ∈ (["iResolution", "iTime", "iTimeDelta", "iMouse"] : List String) →
      e1.uniformLoc p.id name = e2.uniformLoc p.id name) :
    get_uniform_locations e1 p = get_uniform_locations e2 p := by
  simp only [get_uniform_locations, get_uniform_location]
  rw [h "iResolution" (by simp), h "iTime" (by simp),
    h "iTimeDelta" (by simp), h "iMouse" (by simp)]

theorem c7_witness :
    get_uniform_locations envU1 { id := 1 } = get_uniform_locations envU2 { id := 1 } :=
  c7_no_camera_slot_consulted envU1 envU2 { id := 1 } (by decide)

/-- C8: reloading in a world whose files are byte-identical to the ones the
compiled set was built from yields the very same service state and no
error. -/
theorem c8_reload_idempotent_on_unchanged_world (env : Env) (paths : List Path)
    (s : ShaderService) (sh : List SkuggboxShader)
    (hnew : ShaderService.new env paths = Except.ok s)
    (hc : create_shaders env paths false = Except.ok sh) :
    s.reload env = (s, Except.ok ()) := by
  rw [new_ok_elim env paths s hnew]
  simp only [ShaderService.reload, hc]

theorem c8_witness : sB1.reload env5a = (sB1, Except.ok ()) :=
  c8_reload_idempotent_on_unchanged_world env5a ["main.frag"] sB1 shA rfl rfl

/-- C10: ShaderService::new returns Ok for every input, also when shaders
fail to resolve or compile; its Err branch is unreachable. -/
theorem c10_new_never_fails (env : Env) (paths : List Path) :
    (ShaderService.new env paths).isOk = true := rfl


/-! Preprocessor lemmas for cycle detection. -/

theorem bindE_error {α β : Type} (e : ShaderError) (f : α → Except ShaderError β) :
    (Except.error e >>= f) = Except.error e := rfl

theorem bindE_ok {α β : Type} (a : α) (f : α → Except ShaderError β) :
    (Except.ok a >>= f) = f a := rfl

theorem mapE_error {α β : Type} (e : ShaderError) (f : α → β) :
    Except.map f (Except.error e : Except ShaderError α) = Except.error e := rfl

theorem mapE_ok {α β : Type} (a : α) (f : α → β) :
    Except.map f (Except.ok a : Except ShaderError α) = Except.ok (f a) := rfl

theorem resolveFile_zero (fs : FS) (v : List Path) (p : Path) :
    resolveFile fs 0 v p = Except.error ShaderError.includeCycle := rfl

theorem resolveFile_succ_mem (fs : FS) (fuel : Nat) (v : List Path) (p : Path)
    (hv : p ∈ v) :
    resolveFile fs (fuel + 1) v p = Except.error ShaderError.includeCycle := by
  simp only [resolveFile]
  rw [if_pos hv]

theorem resolveFile_succ_some (fs : FS) (fuel : Nat) (v : List Path) (p : Path)
    (lines : List Line) (hv : p ∉ v) (hlk : List.lookup p fs = some lines) :
    resolveFile fs (fuel + 1) v p =
      Except.map (fun td => (td.1, p :: td.2))
        (List.foldr (lineStep (resolveFile fs fuel) (p :: v)) (Except.ok ("", [])) lines) := by
  simp only [resolveFile]
  rw [if_neg hv, hlk]

theorem foldr_ok_of_mem (rf : List Path → Path → Except ShaderError (String × List Path))
    (vis : List Path) (q : Path) :
    ∀ (lines : List Line) (r : String × List Path),
      List.foldr (lineStep rf vis) (Except.ok ("", [])) lines = Except.ok r →
      Line.incl q ∈ lines →
      ∃ rq, rf vis q = Except.ok rq := by
  intro lines
  induction lines with
  | nil => intro r h hm; simp at hm
  | cons a rest ih =>
      intro r h hm
      rw [List.foldr_cons] at h
      cases a with
      | text s =>
          cases hacc : List.foldr (lineStep rf vis) (Except.ok ("", [])) rest with
          | error e =>
              rw [hacc] at h
              simp [lineStep, bindE_error] at h
          | ok td =>
              rcases List.mem_cons.mp hm with heq | hmem
              · exact absurd heq (by simp)
              · exact ih td hacc hmem
      | incl qq =>
          cases hq : rf vis qq with
          | error e =>
              simp [lineStep, hq, bindE_error] at h
          | ok rq =>
              rcases List.mem_cons.mp hm with heq | hmem
              · cases heq; exact ⟨rq, hq⟩
              · cases hacc : List.foldr (lineStep rf vis) (Except.ok ("", [])) rest with
                | error e =>
                    rw [hacc] at h
                    simp [lineStep, hq, bindE_ok, bindE_error] at h
                | ok td => exact ih td hacc hmem

theorem resolveFile_ok_not_mem (fs : FS) :
    ∀ (fuel : Nat) (v : List Path) (p : Path) (r : String × List Path),
      resolveFile fs fuel v p = Except.ok r → p ∉ v := by
  intro fuel v p r h
  cases fuel with
  | zero => rw [resolveFile_zero] at h; exact absurd h (by simp)
  | succ fuel =>
      intro hmem
      rw [resolveFile_succ_mem fs fuel v p hmem] at h
      exact absurd h (by simp)

theorem resolveFile_ok_incl (fs : FS) (fuel : Nat) (v : List Path) (p q : Path)
    (lines : List Line) (r : String × List Path)
    (h : resolveFile fs (fuel + 1) v p = Except.ok r)
    (hlk : List.lookup p fs = some lines)
    (hmem : Line.incl q ∈ lines) :
    ∃ rq, resolveFile fs fuel (p :: v) q = Except.ok rq := by
  by_cases hv : p ∈ v
  · rw [resolveFile_succ_mem fs fuel v p hv] at h
    exact absurd h (by simp)
  · rw [resolveFile_succ_some fs fuel v p lines hv hlk] at h
    cases hf : List.foldr (lineStep (resolveFile fs fuel) (p :: v)) (Except.ok ("", [])) lines with
    | error e => rw [hf, mapE_error] at h; exact absurd h (by simp)
    | ok td => exact foldr_ok_of_mem (resolveFile fs fuel) (p :: v) q lines td hf hmem

theorem resolve_reach (fs : FS) {q z : Path}
    (hrt : Relation.ReflTransGen (includesEdge fs) q z) :
    ∀ (fuel : Nat) (v : List Path),
      (∃ r, resolveFile fs fuel v q = Except.ok r) →
      ∃ fuel2 v2 r2, resolveFile fs fuel2 v2 z = Except.ok r2 ∧ v <:+ v2 := by
  induction hrt using Relation.ReflTransGen.head_induction_on with
  | refl =>
      intro fuel v hok
      exact ⟨fuel, v, hok.choose, hok.choose_spec, List.suffix_refl v⟩
  | head hqx hxz ih =>
      intro fuel v hok
      obtain ⟨r, hr⟩ := hok
      cases fuel with
      | zero => rw [resolveFile_zero] at hr; exact absurd hr (by simp)
      | succ fuel =>
          obtain ⟨lines, hlk, hmem⟩ := hqx
          obtain ⟨rq, hrq⟩ := resolveFile_ok_incl fs fuel v _ _ lines r hr hlk hmem
          obtain ⟨fuel2, v2, r2, h2, hsuf⟩ := ih fuel (_ :: v) ⟨rq, hrq⟩
          exact ⟨fuel2, v2, r2, h2, (List.suffix_cons _ v).trans hsuf⟩

theorem resolve_ok_no_self_cycle (fs : FS) (p : Path) (r : String × List Path)
    (h : resolve fs p = Except.ok r) :
    ¬ Relation.TransGen (includesEdge fs) p p := by
  intro htg
  obtain ⟨x, hpx, hxp⟩ := Relation.TransGen.head'_iff.mp htg
  unfold resolve at h
  split at h
  · exact absurd h (by simp)
  · cases h1 : resolveFile fs (fs.length + 1) [] p with
    | error e => rw [h1, mapE_error] at h; exact absurd h (by simp)
    | ok r0 =>
        obtain ⟨lines, hlk, hmem⟩ := hpx
        obtain ⟨rq, hrq⟩ := resolveFile_ok_incl fs fs.length [] p x lines r0 h1 hlk hmem
        obtain ⟨fuel2, v2, r2, h2, hsuf⟩ := resolve_reach fs hxp fs.length [p] ⟨rq, hrq⟩
        exact resolveFile_ok_not_mem fs fuel2 v2 p r2 h2 (hsuf.subset (List.mem_cons_self p []))

/-! Lemmas about the pure include cycles. -/

theorem cname_injective {i j : Nat} (h : cname i = cname j) : i = j := by
  have h2 := congrArg (fun s => s.data.length) h
  simp [cname] at h2
  exact h2

theorem lt_of_mem_cvis : ∀ (i j : Nat), cname j ∈ cvis i → j < i := by
  intro i
  induction i with
  | zero => intro j h; simp [cvis] at h
  | succ i ih =>
      intro j h
      rcases List.mem_cons.mp h with heq | hmem
      · have := cname_injective heq; omega
      · have := ih j hmem; omega

theorem cname_not_mem_cvis (i : Nat) : cname i ∉ cvis i :=
  fun h => absurd (lt_of_mem_cvis i i h) (lt_irrefl i)

theorem mem_cvis_of_lt : ∀ (i j : Nat), j < i → cname j ∈ cvis i := by
  intro i
  induction i with
  | zero => intro j h; omega
  | succ i ih =>
      intro j h
      rcases Nat.lt_succ_iff_lt_or_eq.mp h with h2 | rfl
      · exact List.mem_cons_of_mem _ (ih j h2)
      · exact List.mem_cons_self _ _

theorem lookup_map_cname (g : Nat → List Line) :
    ∀ (l : List Nat) (i : Nat), i ∈ l →
      List.lookup (cname i) (l.map (fun j => (cname j, g j))) = some (g i) := by
  intro l
  induction l with
  | nil => intro i h; simp at h
  | cons j t ih =>
      intro i h
      simp only [List.map_cons, List.lookup]
      by_cases hij : i = j
      · subst hij; simp
      · have hbe : (cname i == cname j) = false := by
          apply beq_eq_false_iff_ne.mpr
          intro hc
          exact hij (cname_injective hc)
        rw [hbe]
        have hm : i ∈ t := by
          rcases List.mem_cons.mp h with rfl | hm
          · exact absurd rfl hij
          · exact hm
        exact ih i hm

theorem lookup_cycleFS {n i : Nat} (h : i < n) :
    List.lookup (cname i) (cycleFS n) = some [Line.incl (cname ((i + 1) % n))] :=
  lookup_map_cname (fun j => [Line.incl (cname ((j + 1) % n))]) (List.range n) i
    (List.mem_range.mpr h)

theorem foldr_single_incl_error (fs : FS) (fl : Nat) (vis : List Path) (q : Path)
    (err : ShaderError) (f : String × List Path → String × List Path)
    (h : resolveFile fs fl vis q = Except.error err) :
    Except.map f
      (List.foldr (lineStep (resolveFile fs fl) vis) (Except.ok ("", [])) [Line.incl q]) =
      Except.error err := by
  rw [List.foldr_cons, List.foldr_nil]
  simp [lineStep, h, bindE_error, mapE_error]

theorem cyc_walk (n : Nat) :
    ∀ (m i : Nat), i + m = n → 0 < m →
      resolveFile (cycleFS n) (m + 1) (cvis i) (cname i) =
        Except.error ShaderError.includeCycle := by
  intro m
  induction m with
  | zero => intro i h hpos; omega
  | succ m ih =>
      intro i hsum hpos
      have hin : i < n := by omega
      rw [resolveFile_succ_some (cycleFS n) (m + 1) (cvis i) (cname i)
        [Line.incl (cname ((i + 1) % n))] (cname_not_mem_cvis i) (lookup_cycleFS hin)]
      rcases Nat.eq_zero_or_pos m with rfl | hm
      · apply foldr_single_incl_error
        have hq : (i + 1) % n = 0 := by
          have hn : i + 1 = n := by omega
          rw [hn, Nat.mod_self]
        rw [hq]
        exact resolveFile_succ_mem (cycleFS n) 0 (cname i :: cvis i) (cname 0)
          (mem_cvis_of_lt (i + 1) 0 (by omega))
      · apply foldr_single_incl_error
        have hq : (i + 1) % n = i + 1 := Nat.mod_eq_of_lt (by omega)
        rw [hq]
        exact ih (i + 1) (by omega) hm

theorem cycle_resolve {n : Nat} (h : 1 ≤ n) :
    resolve (cycleFS n) (cname 0) = Except.error ShaderError.includeCycle := by
  unfold resolve
  have h0 : (0 : Nat) < n := by omega
  simp only [lookup_cycleFS h0]
  have hlen : (cycleFS n).length = n := by simp [cycleFS]
  rw [hlen]
  have hw := cyc_walk n n 0 (by omega) (by omega)
  rw [show cvis 0 = ([] : List Path) from rfl] at hw
  rw [hw, mapE_error]

/-- C9 (amended): resolution of a file that transitively includes itself
always fails: a successful resolution rules out any include cycle through
the root, and the pure include cycle of every length n at least 1 fails
with exactly IncludeCycle.  When another resolution error is reached before
the cycle (for example a missing include listed earlier), that error is
reported instead of IncludeCycle. -/
theorem c9_cycle_detection :
    (∀ (fs : FS) (p : Path) (r : String × List Path),
      resolve fs p = Except.ok r → ¬ Relation.TransGen (includesEdge fs) p p) ∧
    (∀ n : Nat, 1 ≤ n →
      resolve (cycleFS n) (cname 0) = Except.error ShaderError.includeCycle) :=
  ⟨resolve_ok_no_self_cycle, fun _ h => cycle_resolve h⟩

theorem c9_counterexample :
    includesEdge fsC9 "root.frag" "root.frag" ∧
    resolve fsC9 "root.frag" = Except.error (ShaderError.includeNotFound "missing.frag") :=
  ⟨⟨[Line.incl "missing.frag", Line.incl "root.frag"], rfl, by decide⟩, rfl⟩

theorem c9_witness :
    ¬ Relation.TransGen (includesEdge fsGood) "solo.frag" "solo.frag" ∧
    resolve (cycleFS 3) (cname 0) = Except.error ShaderError.includeCycle :=
  ⟨c9_cycle_detection.1 fsGood "solo.frag" ("x\n", ["solo.frag"]) rfl,
   c9_cycle_detection.2 3 (by omega)⟩

end Skuggbox
